import Mathlib

/-!
Shallow embedding of the viavi-meter-provisioning core logic:
MAC address utilities (`src/utils/macUtils.ts`), the error classifier
(`src/utils/errorUtils.ts`), the provisioning API client
(`src/services/provisioningApi.ts`), the workflow page handlers
(`src/components/ProvisioningPage.tsx`, both the single-address and the
sequential four-address variant), and the edge proxy middleware
(`vite.config.ts`).

JavaScript strings are modelled as Lean `String` / `List Char`;
JS `BigInt` arithmetic as `Nat`; thrown exceptions as explicit
`Except` / error constructors; asynchronous sequencing as explicit
event traces.
-/

deriving instance DecidableEq for Except

namespace Viavi

/-! ### Character helpers (ASCII case mapping and hex digits)

`charToUpper` / `charToLower` model the effect of JS
`String.prototype.toUpperCase` / `toLowerCase` on ASCII characters,
which is exact for every character this code manipulates. -/

def charToUpper (c : Char) : Char :=
  if 97 ≤ c.toNat ∧ c.toNat ≤ 122 then Char.ofNat (c.toNat - 32) else c

def charToLower (c : Char) : Char :=
  if 65 ≤ c.toNat ∧ c.toNat ≤ 90 then Char.ofNat (c.toNat + 32) else c

/-- The regex class `[0-9A-Fa-f]` from `normalizeMac`. -/
def isHexChar (c : Char) : Bool :=
  (48 ≤ c.toNat ∧ c.toNat ≤ 57) ∨ (65 ≤ c.toNat ∧ c.toNat ≤ 70) ∨
    (97 ≤ c.toNat ∧ c.toNat ≤ 102)

/-- The regex class `[0-9A-F]` (uppercase hex digit). -/
def isUpperHexChar (c : Char) : Bool :=
  (48 ≤ c.toNat ∧ c.toNat ≤ 57) ∨ (65 ≤ c.toNat ∧ c.toNat ≤ 70)

/-- Numeric value of a hex digit character (0 for non-digits). -/
def hexCharVal (c : Char) : Nat :=
  if 48 ≤ c.toNat ∧ c.toNat ≤ 57 then c.toNat - 48
  else if 65 ≤ c.toNat ∧ c.toNat ≤ 70 then c.toNat - 55
  else if 97 ≤ c.toNat ∧ c.toNat ≤ 102 then c.toNat - 87
  else 0

def toLowerStr (s : String) : String := String.mk (s.data.map charToLower)

def toUpperStr (s : String) : String := String.mk (s.data.map charToUpper)

/-! ### macUtils.ts -/

/-- `mac.replace(/:/g, '')`. -/
def stripColons (s : String) : String :=
  String.mk (s.data.filter (fun c => c ≠ ':'))

/-- JS whitespace characters relevant to `BigInt(string)` trimming
(ASCII subset; the code never feeds non-ASCII whitespace). -/
def isJsWhitespace (c : Char) : Bool :=
  c = ' ' ∨ c = '\t' ∨ c = '\n' ∨ c = '\r' ∨ c.toNat = 11 ∨ c.toNat = 12

/-- Big-endian value of a list of hex digit characters. -/
def hexListVal (l : List Char) : Nat :=
  l.foldl (fun acc c => 16 * acc + hexCharVal c) 0

/-- Models `BigInt('0x' + s)`: the string is trimmed of trailing
whitespace (leading trimming cannot reach past the `0x` prefix); the
remainder must be a non-empty run of hex digits, else a `SyntaxError`
is thrown (modelled as `none`). -/
def jsBigIntHex (s : String) : Option Nat :=
  let t := (s.data.reverse.dropWhile isJsWhitespace).reverse
  if t ≠ [] ∧ t.all isHexChar then some (hexListVal t) else none

/-- `Nat.digitChar`-style hex digit for `toString(16)` (lowercase, as JS). -/
def hexDigitChar (n : Nat) : Char :=
  if n ≤ 9 then Char.ofNat (48 + n) else Char.ofNat (87 + n)

/-- Hex digits of `n`, least significant first; `fuel` bounds the digit
count (structural recursion stand-in for the division loop). -/
def toHexRev : Nat → Nat → List Char
  | 0, _ => []
  | fuel + 1, n =>
    if n < 16 then [hexDigitChar n]
    else hexDigitChar (n % 16) :: toHexRev fuel (n / 16)

/-- `newNumber.toString(16)`: minimal lowercase hex representation
(`n + 1` units of fuel always suffice since `n / 16` shrinks). -/
def toHexStr (n : Nat) : List Char := (toHexRev (n + 1) n).reverse

/-- `padStart(12, '0')`. -/
def padStart12 (l : List Char) : List Char :=
  List.replicate (12 - l.length) '0' ++ l

/-- `hex.match(/.{2}/g)?.join(':')` on an even-length string: a colon
between every pair of characters. -/
def insertColons : List Char → List Char
  | a :: b :: rest =>
    if rest = [] then [a, b] else a :: b :: ':' :: insertColons rest
  | l => l

/-- Canonical formatting of a 48-bit value, as done inside
`generateSequentialMacs`: `toString(16).toUpperCase().padStart(12,'0')`
then colon-grouping into pairs. -/
def formatMac (n : Nat) : String :=
  String.mk (insertColons (padStart12 ((toHexStr n).map charToUpper)))

structure MacGenerationResult where
  success : Bool
  macs : Option (List String)
  error : Option String
deriving DecidableEq, Repr

/-- Message of the `SyntaxError` thrown by `BigInt('0x' + s)` (V8 wording). -/
def bigIntErrorMessage (s : String) : String :=
  "Cannot convert 0x" ++ s ++ " to a BigInt"

def macOverflowLimit : Nat := 0xFFFFFFFFFFFF

/-- The generation loop of `generateSequentialMacs`: for `i` in
`[0, 4)` compute `base + i`, failing on 48-bit overflow. The loop runs
for `rounds` further iterations starting at index `i` (the source's
`for (let i = 0; i < 4; i++)` is `genLoop base 0 4 []`). -/
def genLoop (base : Nat) : Nat → Nat → List String → MacGenerationResult
  | _, 0, acc => { success := true, macs := some acc, error := none }
  | i, rounds + 1, acc =>
    let newNumber := base + i
    if newNumber > macOverflowLimit then
      { success := false, macs := none,
        error := some ("MAC overflow: Cannot generate MAC +" ++ toString i ++
          " (exceeds 48-bit limit)") }
    else
      genLoop base (i + 1) rounds (acc ++ [formatMac newNumber])

/-- `generateSequentialMacs` from `src/utils/macUtils.ts`: strip the
colons, interpret the remainder via `BigInt('0x' + cleanMac)` (a parse
failure is the thrown exception landing in the `catch` branch), then
generate `base + 0 .. base + 3` with 48-bit overflow detection. -/
def generateSequentialMacs (baseMac : String) : MacGenerationResult :=
  let cleanMac := stripColons baseMac
  match jsBigIntHex cleanMac with
  | none =>
    { success := false, macs := none,
      error := some ("Failed to generate sequential MACs: " ++
        bigIntErrorMessage cleanMac) }
  | some baseNumber => genLoop baseNumber 0 4 []

/-- `validateMacFormat`: the regex `^[0-9A-F]{2}(:[0-9A-F]{2}){5}$`. -/
def validateMacFormat (mac : String) : Bool :=
  match mac.data with
  | [a, b, s1, c, d, s2, e, f, s3, g, h, s4, i, j, s5, k, l] =>
    isUpperHexChar a ∧ isUpperHexChar b ∧ s1 = ':' ∧
    isUpperHexChar c ∧ isUpperHexChar d ∧ s2 = ':' ∧
    isUpperHexChar e ∧ isUpperHexChar f ∧ s3 = ':' ∧
    isUpperHexChar g ∧ isUpperHexChar h ∧ s4 = ':' ∧
    isUpperHexChar i ∧ isUpperHexChar j ∧ s5 = ':' ∧
    isUpperHexChar k ∧ isUpperHexChar l
  | _ => false

/-- `normalizeMac`: strip every non-hex character and uppercase; with
exactly 12 hex digits left, group into colon-separated pairs; otherwise
uppercase the raw input and drop everything outside `[0-9A-F:]`. -/
def normalizeMac (input : String) : String :=
  let cleaned := (input.data.filter isHexChar).map charToUpper
  if cleaned.length = 12 then
    String.mk (insertColons cleaned)
  else
    String.mk ((input.data.map charToUpper).filter
      (fun c => isUpperHexChar c ∨ c = ':'))

/-- `extractOui`: first 6 characters after removing colons. -/
def extractOui (mac : String) : String :=
  String.mk ((stripColons mac).data.take 6)

/-! ### errorUtils.ts — substring machinery for the regex patterns

Every regex in `ERROR_PATTERNS` is an unanchored case-insensitive
alternation of literal substrings, except for the `5\d\x7b2\x7d` branch of the
server pattern, modelled by `hasFiveDigitDigit`. Case-insensitivity is
modelled by lowercasing the tested string and using lowercase needles. -/

def containsSub (needle : List Char) : List Char → Bool
  | [] => needle = []
  | c :: rest => needle.isPrefixOf (c :: rest) || containsSub needle rest

def strContains (hay needle : String) : Bool := containsSub needle.data hay.data

def containsAnyOf (needles : List String) (hay : String) : Bool :=
  needles.any (fun n => strContains hay n)

def isDigitChar (c : Char) : Bool := 48 ≤ c.toNat ∧ c.toNat ≤ 57

/-- The regex fragment `5\d\x7b2\x7d`: a literal `5` followed by two digits. -/
def hasFiveDigitDigit : List Char → Bool
  | c :: a :: b :: rest =>
    (c = '5' ∧ isDigitChar a ∧ isDigitChar b) || hasFiveDigitDigit (a :: b :: rest)
  | _ => false

def strHasFiveDigitDigit (s : String) : Bool := hasFiveDigitDigit s.data

/-! ### errorUtils.ts — data model -/

inductive ErrorCategory
  | network | cors | server | validation | timeout | config | oui | auth | unknown
deriving DecidableEq, Repr

structure ClassifiedError where
  category : ErrorCategory
  title : String
  message : String
  likelyCause : String
  suggestion : String
  technicalDetail : Option String
  isRetryable : Bool
deriving DecidableEq, Repr

inductive ContextType
  | search | provision | config | oui
deriving DecidableEq, Repr

structure ErrorContext where
  type : Option ContextType
  url : Option String
  statusCode : Option Nat
deriving DecidableEq, Repr

/-- A JS `Error` instance: its `name` and `message`. -/
structure JsError where
  name : String
  message : String
deriving DecidableEq, Repr

/-- The `Partial<ClassifiedError>` returned by each pattern's
`classify` callback. -/
structure PartialClassified where
  category : Option ErrorCategory
  title : Option String
  message : Option String
  likelyCause : Option String
  suggestion : Option String
  technicalDetail : Option String
  isRetryable : Option Bool
deriving DecidableEq, Repr

/-- JS `x || d` on strings: `undefined` and the empty string fall back. -/
def jsOrStr (x : Option String) (d : String) : String :=
  match x with
  | some s => if s = "" then d else s
  | none => d

/-- One entry of `ERROR_PATTERNS`: a matcher (regex test on the
lowercased message or on the error name, or a predicate on the
context) and its `classify` callback. -/
structure PatternEntry where
  pmatch : JsError → Option ErrorContext → Bool
  classify : JsError → Option ErrorContext → PartialClassified

/-- Regex-backed matcher: the source tests `pattern.test(errorMessage)
|| pattern.test(err.name)` where `errorMessage` is the lowercased
message and every regex carries the `i` flag. -/
def regexEntryMatch (test : String → Bool) (err : JsError)
    (_ : Option ErrorContext) : Bool :=
  test (toLowerStr err.message) || test (toLowerStr err.name)

def corsTest (s : String) : Bool :=
  containsAnyOf ["cors", "cross-origin", "blocked by cors",
    "access-control-allow-origin"] s

def networkTest (s : String) : Bool :=
  containsAnyOf ["failed to fetch", "network error", "networkerror", "net::"] s

def timeoutTest (s : String) : Bool :=
  containsAnyOf ["timeout", "timed out", "aborted"] s

def serverTest (s : String) : Bool :=
  containsAnyOf ["server error", "internal server", "502", "503", "504"] s ||
    strHasFiveDigitDigit s

def validationTest (s : String) : Bool :=
  containsAnyOf ["validation", "400", "bad request", "invalid"] s

def authTest (s : String) : Bool :=
  containsAnyOf ["401", "403", "unauthorized", "forbidden", "authentication"] s

def configTest (s : String) : Bool :=
  containsAnyOf ["config", "provision-defaults", "approved-ouis"] s

/-- The ordered `ERROR_PATTERNS` table. The OUI entry is the LAST
element, exactly as in the source (`errorUtils.ts` lines 30-132). -/
def ERROR_PATTERNS : List PatternEntry := [
  { pmatch := regexEntryMatch corsTest,
    classify := fun _ _ =>
      { category := some .cors,
        title := some "Connection Blocked",
        message := some "The browser blocked this request due to security restrictions.",
        likelyCause := some "The backend API server is not configured to accept requests from this application.",
        suggestion := some "Contact the API administrator to enable CORS headers, or use the application proxy.",
        technicalDetail := none,
        isRetryable := some false } },
  { pmatch := regexEntryMatch networkTest,
    classify := fun _ _ =>
      { category := some .network,
        title := some "Network Error",
        message := some "Unable to connect to the server.",
        likelyCause := some "The server may be down, or there could be a network connectivity issue.",
        suggestion := some "Check your network connection and verify the server is running.",
        technicalDetail := none,
        isRetryable := some true } },
  { pmatch := regexEntryMatch timeoutTest,
    classify := fun _ _ =>
      { category := some .timeout,
        title := some "Request Timeout",
        message := some "The server took too long to respond.",
        likelyCause := some "The server may be overloaded or the network is slow.",
        suggestion := some "Wait a moment and try again. If the problem persists, contact support.",
        technicalDetail := none,
        isRetryable := some true } },
  { pmatch := regexEntryMatch serverTest,
    classify := fun err _ =>
      { category := some .server,
        title := some "Server Error",
        message := some "The server encountered an error processing your request.",
        likelyCause := some "There may be an issue with the backend service or database.",
        suggestion := some "This is a temporary issue. Wait a few minutes and try again.",
        technicalDetail := some err.message,
        isRetryable := some true } },
  { pmatch := regexEntryMatch validationTest,
    classify := fun err _ =>
      { category := some .validation,
        title := some "Validation Error",
        message := some "The request contains invalid data.",
        likelyCause := some "The MAC address format or configuration values may be incorrect.",
        suggestion := some "Verify all input values are correct and try again.",
        technicalDetail := some err.message,
        isRetryable := some false } },
  { pmatch := regexEntryMatch authTest,
    classify := fun _ _ =>
      { category := some .auth,
        title := some "Access Denied",
        message := some "You do not have permission to perform this action.",
        likelyCause := some "Your session may have expired or you lack the required permissions.",
        suggestion := some "Try refreshing the page. If the issue persists, contact your administrator.",
        technicalDetail := none,
        isRetryable := some false } },
  { pmatch := regexEntryMatch configTest,
    classify := fun _ _ =>
      { category := some .config,
        title := some "Configuration Error",
        message := some "Failed to load application configuration.",
        likelyCause := some "Configuration files may be missing or inaccessible.",
        suggestion := some "Refresh the page. If the problem persists, contact support.",
        technicalDetail := none,
        isRetryable := some true } },
  { pmatch := fun _ context =>
      match context with
      | some c => c.type = some .oui
      | none => false,
    classify := fun _ _ =>
      { category := some .oui,
        title := some "OUI Not Recognized",
        message := some "The MAC address vendor (OUI) is not in the approved list.",
        likelyCause := some "This device manufacturer is not configured for provisioning.",
        suggestion := some "Verify the MAC address is correct. If it is, contact your administrator to add this OUI.",
        technicalDetail := none,
        isRetryable := some false } }
]

/-- The field-default merge applied to a matched pattern's
`Partial<ClassifiedError>` (`errorUtils.ts` lines 195-203).
`technicalDetail` is `classified.technicalDetail || err.message`;
`isRetryable` uses `??` (nullish coalescing), hence `getD`. -/
def mergeClassified (err : JsError) (p : PartialClassified) : ClassifiedError :=
  { category := p.category.getD .unknown
    title := jsOrStr p.title "Error"
    message := jsOrStr p.message err.message
    likelyCause := jsOrStr p.likelyCause "Unknown cause."
    suggestion := jsOrStr p.suggestion "Please try again."
    technicalDetail := some (jsOrStr p.technicalDetail err.message)
    isRetryable := p.isRetryable.getD false }

/-- First-match-wins scan of the pattern table. -/
def firstPatternMatch (err : JsError) (ctx : Option ErrorContext) :
    List PatternEntry → Option PartialClassified
  | [] => none
  | e :: rest =>
    if e.pmatch err ctx then some (e.classify err ctx)
    else firstPatternMatch err ctx rest

/-- The fallback classification when no pattern matches. -/
def unknownClassified (err : JsError) : ClassifiedError :=
  { category := .unknown
    title := "Unexpected Error"
    message := "An unexpected error occurred."
    likelyCause := "This could be a temporary issue or a bug in the application."
    suggestion := "Try refreshing the page. If the problem persists, contact support."
    technicalDetail := some err.message
    isRetryable := true }

/-- Pattern-table part of `classifyError` (after the status-code checks). -/
def classifyByPatterns (err : JsError) (ctx : Option ErrorContext) : ClassifiedError :=
  match firstPatternMatch err ctx ERROR_PATTERNS with
  | some p => mergeClassified err p
  | none => unknownClassified err

/-- JS truthiness of `context?.statusCode`: present and nonzero. -/
def truthyStatusCode (ctx : Option ErrorContext) : Option Nat :=
  match ctx with
  | some c =>
    match c.statusCode with
    | some n => if n = 0 then none else some n
    | none => none
  | none => none

/-- `classifyError` from `errorUtils.ts`: the explicit status-code
rules run first; then the ordered pattern table; then the unknown
default. A string argument in the source becomes `new Error(string)`,
i.e. `⟨"Error", s⟩` here. -/
def classifyError (error : JsError) (context : Option ErrorContext) : ClassifiedError :=
  match truthyStatusCode context with
  | some sc =>
    if sc ≥ 500 then
      { category := .server
        title := "Server Error"
        message := "The server returned an error (" ++ toString sc ++ ")."
        likelyCause := "The backend service encountered an internal error."
        suggestion := "Wait a moment and try again. If the problem persists, contact support."
        technicalDetail := some error.message
        isRetryable := true }
    else if sc = 400 then
      { category := .validation
        title := "Invalid Request"
        message := "The server rejected the request as invalid."
        likelyCause := "The data sent may be in the wrong format or contain invalid values."
        suggestion := "Check your input and try again."
        technicalDetail := some error.message
        isRetryable := false }
    else if sc = 401 ∨ sc = 403 then
      { category := .auth
        title := "Access Denied"
        message := "You do not have permission to perform this action."
        likelyCause := "Your session may have expired or you lack the required permissions."
        suggestion := "Refresh the page and try again."
        technicalDetail := none
        isRetryable := false }
    else classifyByPatterns error context
  | none => classifyByPatterns error context

/-- `classifyError` applied to a string argument (`new Error(s)`). -/
def classifyErrorStr (s : String) (context : Option ErrorContext) : ClassifiedError :=
  classifyError ⟨"Error", s⟩ context

/-! ### provisioningApi.ts -/

structure MacSearchResult where
  mac : String
  account : String
  configfile : String
  isp : String
  customFields : Option (List (String × String))
deriving DecidableEq, Repr

structure ProvisionRequest where
  mac : String
  account : String
  configfile : String
  isp : String
deriving DecidableEq, Repr

structure ProvisionResponse where
  success : Bool
  error : Option ClassifiedError
  detail : Option String
deriving DecidableEq, Repr

structure ApiConfig where
  baseUrl : String
  enableStubMode : Bool
  stubDelay : Nat
  timeout : Nat
deriving DecidableEq, Repr

/-- The service's initial configuration (`ProvisioningApiService.config`). -/
def defaultApiConfig : ApiConfig :=
  { baseUrl := "", enableStubMode := true, stubDelay := 1500, timeout := 30000 }

/-- `configure`: merge-style partial override. -/
structure PartialApiConfig where
  baseUrl : Option String
  enableStubMode : Option Bool
  stubDelay : Option Nat
  timeout : Option Nat
deriving DecidableEq, Repr

def configure (c : ApiConfig) (p : PartialApiConfig) : ApiConfig :=
  { baseUrl := p.baseUrl.getD c.baseUrl
    enableStubMode := p.enableStubMode.getD c.enableStubMode
    stubDelay := p.stubDelay.getD c.stubDelay
    timeout := p.timeout.getD c.timeout }

/-- JS `encodeURIComponent`: every character outside the unreserved set
is percent-encoded (ASCII model; MAC strings are ASCII). -/
def isUriUnreserved (c : Char) : Bool :=
  c.isAlpha ∨ c.isDigit ∨
    (c = '-' ∨ c = '_' ∨ c = '.' ∨ c = '!' ∨ c = '~' ∨ c = '*' ∨
      c = Char.ofNat 39 ∨ c = '(' ∨ c = ')')

def percentEncodeChar (c : Char) : List Char :=
  ['%', charToUpper (hexDigitChar (c.toNat / 16)),
    charToUpper (hexDigitChar (c.toNat % 16))]

def encodeURIComponent (s : String) : String :=
  String.mk (s.data.flatMap
    (fun c => if isUriUnreserved c then [c] else percentEncodeChar c))

/-- The body of an HTTP response, as observed through
`response.text()` / `response.json()`: empty, non-JSON text, a JSON
boolean, a JSON object carrying optional `detail` / `error` /
`message` string fields, or a JSON array of device records. -/
inductive ResponseBody
  | empty
  | invalidJson (text : String)
  | jsonBool (b : Bool)
  | jsonObj (detail error message : Option String)
  | jsonRecords (records : List MacSearchResult)
deriving DecidableEq, Repr

structure HttpResponse where
  status : Nat
  statusText : String
  body : ResponseBody
deriving DecidableEq, Repr

/-- `response.ok`: status in the inclusive range 200-299. -/
def HttpResponse.respOk (r : HttpResponse) : Bool :=
  200 ≤ r.status ∧ r.status ≤ 299

/-- First truthy among JS `a || b || ...` string candidates. -/
def firstTruthy (l : List (Option String)) : Option String :=
  l.findSome? (fun o =>
    match o with
    | some s => if s = "" then none else some s
    | none => none)

/-- `json.detail || json.error || json.message`, with `undefined` for
bodies that parse to no object (or fail to parse / are empty). -/
def bodyMessage (b : ResponseBody) : Option String :=
  match b with
  | .jsonObj d e m => firstTruthy [d, e, m]
  | _ => none

/-- `createErrorFromResponse`: prefer a `detail` / `error` / `message`
field of the JSON body, else `HTTP <status>: <statusText>`, then
classify with `statusCode := response.status`. -/
def createErrorFromResponse (r : HttpResponse) (context : Option ErrorContext) :
    ClassifiedError :=
  let base := "HTTP " ++ toString r.status ++ ": " ++ r.statusText
  let msg := (bodyMessage r.body).getD base
  let ctx : ErrorContext :=
    match context with
    | some c => { c with statusCode := some r.status }
    | none => { type := none, url := none, statusCode := some r.status }
  classifyError ⟨"Error", msg⟩ (some ctx)

/-- Result of one `fetch` call: a settled response, or a thrown /
rejected error (network failure, abort, ...). -/
inductive FetchOutcome
  | response (r : HttpResponse)
  | fetchThrow (e : JsError)
deriving DecidableEq, Repr

/-- JS `parseInt(s, 16)`: skip leading whitespace, optional sign,
optional `0x` prefix, then the longest run of hex digits; `none`
models `NaN`. -/
def parseIntHex (s : String) : Option Int :=
  let l := s.data.dropWhile isJsWhitespace
  let signNeg : Bool := match l with | '-' :: _ => true | _ => false
  let l1 : List Char := match l with
    | '-' :: t => t
    | '+' :: t => t
    | _ => l
  let l2 : List Char := match l1 with
    | '0' :: c :: t => if c = 'x' ∨ c = 'X' then t else l1
    | _ => l1
  let digits := l2.takeWhile isHexChar
  if digits = [] then none
  else some ((if signNeg then -1 else 1) * (hexListVal digits : Int))

/-- JS `x % m === 0` where `x` may be `NaN` (`none`): `NaN % m` is
`NaN`, which is not `=== 0`. -/
def jsModZero (x : Option Int) (m : Int) : Bool :=
  match x with
  | some v => v % m = 0
  | none => false

/-- `stubSearchByMac`: existence for multiples of 3, a simulated
server error (a thrown plain `Error`, carrying no classification) for
multiples of 7 that are not multiples of 21. The `stubDelay` sleep is
timing-only and not modelled. -/
def stubSearchByMac (mac : String) : Except JsError (List MacSearchResult) :=
  let macNumber := parseIntHex (stripColons mac)
  let shouldExist := jsModZero macNumber 3
  let shouldError := jsModZero macNumber 7
  if shouldError ∧ ¬ jsModZero macNumber 21 then
    .error ⟨"Error", "Simulated server error (5xx)"⟩
  else if shouldExist then
    .ok [{ mac := mac, account := "ViaviMeter", configfile := "existing-config",
           isp := "CableOne", customFields := none }]
  else
    .ok []

/-- `stubAddHsd`: simulated 500 outcome for multiples of 11, simulated
400 outcome for multiples of 5, success otherwise. -/
def stubAddHsd (request : ProvisionRequest) : ProvisionResponse :=
  let macNumber := parseIntHex (stripColons request.mac)
  let shouldError400 := jsModZero macNumber 5
  let shouldError500 := jsModZero macNumber 11
  if shouldError500 then
    { success := false
      error := some (classifyErrorStr "Server error: 500" (some ⟨some .provision, none, none⟩))
      detail := some "Simulated internal server error" }
  else if shouldError400 then
    { success := false
      error := some (classifyErrorStr "Validation failed: MAC already exists"
        (some ⟨some .provision, none, none⟩))
      detail := some "MAC address already exists with different configuration" }
  else
    { success := true, error := none, detail := none }

/-- The `try` block of real-mode `addHsd`: an `ok` response is parsed
as JSON and compared `=== true`; a non-ok response is converted into a
failure outcome; a fetch rejection or JSON-parse failure is a thrown
error. -/
def addHsdAttempt (ctx : ErrorContext) (outcome : FetchOutcome) :
    Except JsError ProvisionResponse :=
  match outcome with
  | .fetchThrow e => .error e
  | .response r =>
    if r.respOk then
      match r.body with
      | .jsonBool b => .ok { success := b, error := none, detail := none }
      | .jsonObj _ _ _ => .ok { success := false, error := none, detail := none }
      | .jsonRecords _ => .ok { success := false, error := none, detail := none }
      | .empty => .error ⟨"SyntaxError", "Unexpected end of JSON input"⟩
      | .invalidJson _ => .error ⟨"SyntaxError", "Unexpected token in JSON"⟩
    else
      let ce := createErrorFromResponse r (some ctx)
      .ok { success := false, error := some ce, detail := ce.technicalDetail }

/-- The `catch` block of real-mode `addHsd`: an abort becomes a
`timeout`-classified outcome, anything else is classified as-is; in
every case an outcome value is returned, never a rejection. -/
def addHsdCatch (ctx : ErrorContext) (e : JsError) : ProvisionResponse :=
  if e.name = "AbortError" then
    let t := classifyErrorStr "Request timed out" (some ctx)
    { success := false, error := some t, detail := t.technicalDetail }
  else
    let ce := classifyError e (some ctx)
    { success := false, error := some ce, detail := ce.technicalDetail }

def addHsdContext (cfg : ApiConfig) : ErrorContext :=
  ⟨some .provision, some (cfg.baseUrl ++ "/addhsd"), none⟩

def addHsdReal (cfg : ApiConfig) (outcome : FetchOutcome) : ProvisionResponse :=
  match addHsdAttempt (addHsdContext cfg) outcome with
  | .ok resp => resp
  | .error e => addHsdCatch (addHsdContext cfg) e

/-- `addHsd`: stub mode short-circuits to `stubAddHsd`; real mode runs
the fetch attempt under the catch-all. The returned value is always a
`ProvisionResponse` — the promise never rejects. -/
def addHsd (cfg : ApiConfig) (request : ProvisionRequest) (outcome : FetchOutcome) :
    ProvisionResponse :=
  if cfg.enableStubMode then stubAddHsd request else addHsdReal cfg outcome

/-- The value thrown by real-mode `searchByMac`:
`Object.assign(new Error(classified.message), { classifiedError })`. -/
structure ClassifiedThrow where
  message : String
  classifiedError : ClassifiedError
deriving DecidableEq, Repr

/-- An error propagating inside real-mode `searchByMac` before the
`catch` block: either a raw JS error (fetch rejection, JSON parse
failure) or the already-classified throw from the non-ok branch. -/
inductive SearchMid
  | js (e : JsError)
  | classifiedThrow (t : ClassifiedThrow)
deriving DecidableEq, Repr

/-- The `try` block of real-mode `searchByMac`. -/
def searchAttempt (ctx : ErrorContext) (outcome : FetchOutcome) :
    Except SearchMid (List MacSearchResult) :=
  match outcome with
  | .fetchThrow e => .error (.js e)
  | .response r =>
    if r.respOk then
      match r.body with
      | .jsonRecords l => .ok l
      | .jsonObj _ _ _ => .ok []
      | .jsonBool _ => .ok []
      | .empty => .error (.js ⟨"SyntaxError", "Unexpected end of JSON input"⟩)
      | .invalidJson _ => .error (.js ⟨"SyntaxError", "Unexpected token in JSON"⟩)
    else
      let ce := createErrorFromResponse r (some ctx)
      .error (.classifiedThrow ⟨ce.message, ce⟩)

/-- The `catch` block of real-mode `searchByMac`: aborts are
re-thrown as `timeout`-classified, already-classified errors re-thrown
unchanged, anything else classified and thrown. -/
def searchCatch (ctx : ErrorContext) : SearchMid → ClassifiedThrow
  | .js e =>
    if e.name = "AbortError" then
      let t := classifyErrorStr "Request timed out" (some ctx)
      ⟨t.message, t⟩
    else
      let ce := classifyError e (some ctx)
      ⟨ce.message, ce⟩
  | .classifiedThrow t => t

def searchContext (cfg : ApiConfig) (mac : String) : ErrorContext :=
  ⟨some .search, some (cfg.baseUrl ++ "/searchbymac/" ++ encodeURIComponent mac), none⟩

def searchByMacReal (cfg : ApiConfig) (mac : String) (outcome : FetchOutcome) :
    Except ClassifiedThrow (List MacSearchResult) :=
  match searchAttempt (searchContext cfg mac) outcome with
  | .ok l => .ok l
  | .error m => .error (searchCatch (searchContext cfg mac) m)

/-- A failure of `searchByMac` as seen by the caller: in stub mode the
simulated server error is a plain `Error` (thrown outside the
`try`/`catch`), in real mode a classified throw. -/
inductive SearchFailure
  | plain (e : JsError)
  | classified (t : ClassifiedThrow)
deriving DecidableEq, Repr

/-- `searchByMac`: stub mode returns `stubSearchByMac(mac)` before the
`try` block, so its rejection is NOT routed through the classifying
`catch`. -/
def searchByMac (cfg : ApiConfig) (mac : String) (outcome : FetchOutcome) :
    Except SearchFailure (List MacSearchResult) :=
  if cfg.enableStubMode then (stubSearchByMac mac).mapError .plain
  else (searchByMacReal cfg mac outcome).mapError .classified

/-! ### ProvisioningPage.tsx (sequential four-address variant) -/

inductive LookupStatus
  | pending | checking | found | notFound | unknown
deriving DecidableEq, Repr

inductive ProvisionState
  | pending | provisioning | complete | error
deriving DecidableEq, Repr

/-- The `error` field of a `MacStatus` row. JS lets
`result.detail || result.error || 'Unknown error'` assign either a
string (`detail`) or the whole `ClassifiedError` object (`error`). -/
inductive ErrField
  | str (s : String)
  | obj (e : ClassifiedError)
deriving DecidableEq, Repr

structure MacStatus where
  mac : String
  index : Nat
  configfile : String
  status : LookupStatus
  currentData : Option MacSearchResult
  provisionState : ProvisionState
  error : Option ErrField
deriving DecidableEq, Repr

def dfltMacStatus : MacStatus :=
  ⟨"", 0, "", .pending, none, .pending, none⟩

/-- Sequential-variant provisioning defaults
(`{account, isp, configfiles}`). -/
structure SeqProvisionDefaults where
  account : String
  isp : String
  configfiles : List String
deriving DecidableEq, Repr

/-- The settled result of one awaited `provisioningApi.addHsd` call:
its resolved `ProvisionResponse`, or a rejection (caught by the page's
`try`/`catch`). -/
inductive AddHsdOutcome
  | resolved (r : ProvisionResponse)
  | thrown (e : JsError)
deriving DecidableEq, Repr

def outcomeSuccess : AddHsdOutcome → Bool
  | .resolved r => r.success
  | .thrown _ => false

/-- `result.detail || result.error || 'Unknown error'`. -/
def provisionErrField (r : ProvisionResponse) : ErrField :=
  match r.detail with
  | some s =>
    if s = "" then
      match r.error with
      | some e => .obj e
      | none => .str "Unknown error"
    else .str s
  | none =>
    match r.error with
    | some e => .obj e
    | none => .str "Unknown error"

/-- Apply one settled `addHsd` outcome to a (provisioning-marked) row;
also reports whether `successCount` is incremented. -/
def settleOutcome (m : MacStatus) : AddHsdOutcome → MacStatus × Bool
  | .resolved r =>
    if r.success then ({ m with provisionState := .complete }, true)
    else ({ m with provisionState := ProvisionState.error,
                   error := some (provisionErrField r) }, false)
  | .thrown e =>
    ({ m with provisionState := ProvisionState.error,
              error := some (ErrField.str e.message) }, false)

/-- Observable actions of the provisioning loop, in program order:
`setMacs` state snapshots, the issue of an `addHsd` request for an
index, and the final summary toast. -/
inductive ProvEvent
  | setMacs (macs : List MacStatus)
  | callAddHsd (i : Nat) (req : ProvisionRequest)
  | toastSummary (successCount total : Nat)
deriving DecidableEq, Repr

/-- The `for` loop of `startProvisioning`
(`ProvisioningPage.tsx`, sequential variant, lines 504-543): at index
`i`, mark the row `provisioning` and publish the state, issue the
`addHsd` request, await its outcome (`oracle i`), record the result and
publish again — only then move to index `i + 1`. `steps` counts the
remaining iterations. Returns the final rows, the success count and
the emitted event trace. -/
def provisionLoop (d : SeqProvisionDefaults) (oracle : Nat → AddHsdOutcome) :
    List MacStatus → Nat → Nat → List MacStatus × Nat × List ProvEvent
  | cur, _, 0 => (cur, 0, [])
  | cur, i, steps + 1 =>
    let marked := { cur.getD i dfltMacStatus with provisionState := .provisioning }
    let cur1 := cur.set i marked
    let req : ProvisionRequest :=
      { mac := marked.mac, account := d.account,
        configfile := marked.configfile, isp := d.isp }
    let settled := (settleOutcome marked (oracle i)).1
    let ok := (settleOutcome marked (oracle i)).2
    let cur2 := cur1.set i settled
    let rest := provisionLoop d oracle cur2 (i + 1) steps
    (rest.1, (if ok then 1 else 0) + rest.2.1,
      .setMacs cur1 :: .callAddHsd i req :: .setMacs cur2 :: rest.2.2)

/-- `startProvisioning` (sequential variant): if the provisioning
defaults failed to load, return early with no events; otherwise run
the sequential loop over all rows and emit the summary toast
`Provisioned <successCount> of <total> MACs successfully`. -/
def startProvisioning (defaults : Option SeqProvisionDefaults)
    (macs : List MacStatus) (oracle : Nat → AddHsdOutcome) :
    List MacStatus × List ProvEvent :=
  match defaults with
  | none => (macs, [])
  | some d =>
    let (fin, cnt, evs) := provisionLoop d oracle macs 0 macs.length
    (fin, evs ++ [.toastSummary cnt macs.length])

/-- `hasExistingMacs`: `macs.some(mac => mac.status === 'found')`. -/
def hasExistingMacs (macs : List MacStatus) : Bool :=
  macs.any (fun m => m.status = .found)

/-- What a UI handler invocation did: opened the confirmation dialog,
or invoked `startProvisioning`. -/
inductive UiEvent
  | provisionClick | dialogCancel | dialogProceed
deriving DecidableEq, Repr

/-- One step of the confirmation-dialog wiring in the sequential
variant: `handleProvisionClick` opens the dialog when any row is
`found` and otherwise starts provisioning; the dialog's Cancel button
only closes it; its Proceed button invokes `startProvisioning` (which
closes the dialog). Returns (new `showConfirmDialog`, whether
`startProvisioning` was invoked). -/
def uiStepMulti (macs : List MacStatus) : UiEvent → Bool × Bool
  | .provisionClick =>
    if hasExistingMacs macs then (true, false) else (false, true)
  | .dialogCancel => (false, false)
  | .dialogProceed => (false, true)

/-- Single-address variant row (`MacStatusCard`'s `MacStatus`). -/
structure MacStatusSingle where
  mac : String
  configfile : String
  status : LookupStatus
  currentData : Option MacSearchResult
  provisionState : ProvisionState
  error : Option String
deriving DecidableEq, Repr

/-- `mac?.status === 'found'` in the single-address variant's
`handleProvisionClick` (`mac` may be `null`). -/
def singleHasFound (mac : Option MacStatusSingle) : Bool :=
  match mac with
  | some m => m.status = .found
  | none => false

/-- Confirmation-dialog wiring of the single-address variant. -/
def uiStepSingle (mac : Option MacStatusSingle) : UiEvent → Bool × Bool
  | .provisionClick =>
    if singleHasFound mac then (true, false) else (false, true)
  | .dialogCancel => (false, false)
  | .dialogProceed => (false, true)

/-! ### vite.config.ts — edge proxy middleware -/

def LDAP_API_URL : String := "https://ldap-api.apps.prod-ocp4.corp.cableone.net"

structure ProxyRequest where
  url : String
  method : String
  body : String
deriving DecidableEq, Repr

/-- What the proxied value thrown by the forwarding attempt was:
an `Error` instance, or some other thrown value
(`error instanceof Error ? error.message : 'Unknown proxy error'`). -/
inductive ProxyThrown
  | jsError (e : JsError)
  | nonError
deriving DecidableEq, Repr

def proxyErrMsg : ProxyThrown → String
  | .jsError e => e.message
  | .nonError => "Unknown proxy error"

/-- Result of the proxy's `fetch(targetUrl, ...)` + `response.text()`
forwarding attempt: the backend's status, `Content-Type` header (as
returned by `headers.get`, possibly absent) and body text — or a
throw/rejection anywhere in the attempt. -/
inductive ForwardOutcome
  | backendResponse (status : Nat) (contentType : Option String) (data : String)
  | thrown (e : ProxyThrown)
deriving DecidableEq, Repr

/-- Body written by the proxy: the backend's text verbatim, or the
fabricated JSON envelope
`JSON.stringify(\x7berror, message, target\x7d)`. -/
inductive ProxyBody
  | backend (data : String)
  | errorEnvelope (error message target : String)
deriving DecidableEq, Repr

structure ProxyResponse where
  status : Nat
  contentType : String
  accessControlAllowOrigin : Option String
  body : ProxyBody
deriving DecidableEq, Repr

/-- The `/api/ldap` middleware (`vite.config.ts` lines 15-59): forward
to `LDAP_API_URL + req.url`; on a backend response mirror its status
and body, defaulting `Content-Type` to `application/json` only when
the backend omitted it (JS `||`, so an empty header also falls back)
and setting `Access-Control-Allow-Origin: *`; on any thrown forwarding
attempt answer 502 with the fabricated JSON envelope. -/
def proxyHandle (req : ProxyRequest) (outcome : ForwardOutcome) : ProxyResponse :=
  let targetUrl := LDAP_API_URL ++ req.url
  match outcome with
  | .backendResponse status ct data =>
    { status := status
      contentType := jsOrStr ct "application/json"
      accessControlAllowOrigin := some "*"
      body := .backend data }
  | .thrown e =>
    { status := 502
      contentType := "application/json"
      accessControlAllowOrigin := none
      body := .errorEnvelope "Proxy error" (proxyErrMsg e) targetUrl }

/-! ### Spec-side definitions used by the verification theorems -/

/-- The fixed retryability table of the specification's §7: `cors`,
`validation`, `auth`, `oui` are not retryable; `network`, `server`,
`timeout`, `config`, `unknown` are. -/
def retryableCategory : ErrorCategory → Bool
  | .network | .server | .timeout | .config | .unknown => true
  | .cors | .validation | .auth | .oui => false

/-- Whether one of `classifyError`'s explicit status-code rules fires. -/
def statusRuleApplies (ctx : Option ErrorContext) : Bool :=
  match truthyStatusCode ctx with
  | some sc => sc ≥ 500 ∨ sc = 400 ∨ sc = 401 ∨ sc = 403
  | none => false

/-- Whether one of the seven message/name pattern entries that precede
the OUI entry in `ERROR_PATTERNS` matches. -/
def matchesEarlierPattern (err : JsError) (ctx : Option ErrorContext) : Bool :=
  (ERROR_PATTERNS.take 7).any (fun p => p.pmatch err ctx)

/-- Whether any entry of `ERROR_PATTERNS` (the OUI entry included)
matches. -/
def matchesAnyPattern (err : JsError) (ctx : Option ErrorContext) : Bool :=
  ERROR_PATTERNS.any (fun p => p.pmatch err ctx)

/-- Integer value of a MAC string: colons removed, hex digits read
big-endian (the reading both `generateSequentialMacs` and the stubs
perform). -/
def macValue (s : String) : Nat := hexListVal (stripColons s).data

/-- Least-significant-first value of a hex digit list (proof helper,
related to `hexListVal` by list reversal). -/
def valRevHex : List Char → Nat
  | [] => 0
  | c :: t => hexCharVal c + 16 * valRevHex t

/-- Row `i` as published while its `addHsd` call is in flight. -/
def markedRow (macs : List MacStatus) (i : Nat) : MacStatus :=
  { macs.getD i dfltMacStatus with provisionState := .provisioning }

/-- Row `i` as recorded after its `addHsd` outcome settles. -/
def settledRow (oracle : Nat → AddHsdOutcome) (macs : List MacStatus) (i : Nat) :
    MacStatus :=
  (settleOutcome (markedRow macs i) (oracle i)).1

/-- The `addHsd` request issued for row `i`. -/
def requestAt (d : SeqProvisionDefaults) (macs : List MacStatus) (i : Nat) :
    ProvisionRequest :=
  { mac := (markedRow macs i).mac, account := d.account,
    configfile := (markedRow macs i).configfile, isp := d.isp }

/-- The row list after the first `k` addresses have settled. -/
def settledPrefix (oracle : Nat → AddHsdOutcome) (macs : List MacStatus) :
    Nat → List MacStatus
  | 0 => macs
  | k + 1 => (settledPrefix oracle macs k).set k (settledRow oracle macs k)

/-- The three observable events of one loop iteration: publish row `i`
as `provisioning`, issue its request, publish its settled outcome. -/
def provisionBlock (d : SeqProvisionDefaults) (oracle : Nat → AddHsdOutcome)
    (macs : List MacStatus) (i : Nat) : List ProvEvent :=
  [.setMacs ((settledPrefix oracle macs i).set i (markedRow macs i)),
   .callAddHsd i (requestAt d macs i),
   .setMacs (settledPrefix oracle macs (i + 1))]

/-- Concatenated blocks for indices `k, k+1, ..., k+steps-1`. -/
def provisionTraceRange (d : SeqProvisionDefaults) (oracle : Nat → AddHsdOutcome)
    (macs : List MacStatus) : Nat → Nat → List ProvEvent
  | _, 0 => []
  | k, steps + 1 =>
    provisionBlock d oracle macs k ++ provisionTraceRange d oracle macs (k + 1) steps

/-- Number of successful outcomes among indices `k, ..., k+steps-1`. -/
def countSuccessesRange (oracle : Nat → AddHsdOutcome) : Nat → Nat → Nat
  | _, 0 => 0
  | k, steps + 1 =>
    (if outcomeSuccess (oracle k) then 1 else 0) + countSuccessesRange oracle (k + 1) steps

end Viavi

namespace Viavi

/-! ## Theorems -/

/-- C8: whenever the EdgeProxy's forwarding attempt throws or rejects,
the proxy responds with HTTP 502, Content-Type `application/json`, and
exactly the envelope `{error: "Proxy error", message: <cause message>,
target: <computed backend URL>}`; on a backend response it mirrors the
status and body verbatim instead, so the fabricated envelope body is
produced in the failure case and in no other case. -/
theorem proxy_error_envelope_spec :
    ∀ (req : ProxyRequest) (e : ProxyThrown) (status : Nat) (ct : Option String)
      (data : String),
      proxyHandle req (.thrown e) =
        { status := 502, contentType := "application/json",
          accessControlAllowOrigin := none,
          body := .errorEnvelope "Proxy error" (proxyErrMsg e)
            (LDAP_API_URL ++ req.url) } ∧
      proxyHandle req (.backendResponse status ct data) =
        { status := status, contentType := jsOrStr ct "application/json",
          accessControlAllowOrigin := some "*", body := .backend data } ∧
      (∀ outcome : ForwardOutcome,
        (∃ a b c, (proxyHandle req outcome).body = .errorEnvelope a b c) ↔
          ∃ pe, outcome = .thrown pe) := by
  intro req e status ct data
  refine ⟨rfl, rfl, ?_⟩
  intro outcome
  cases outcome <;> simp [proxyHandle]

/-- C7: in both workflow variants, the provision action starts
provisioning directly iff no tracked address has lookup status
`found`; when some address is `found` it only opens the confirmation
dialog, and across all UI events `startProvisioning` is invoked
exactly by a direct click with no `found` address or by the dialog's
explicit Proceed confirmation (Cancel never starts it). -/
theorem provision_click_confirmation_spec :
    ∀ (macs : List MacStatus) (mac : Option MacStatusSingle),
      (uiStepMulti macs .provisionClick = (false, true) ↔ hasExistingMacs macs = false) ∧
      (uiStepMulti macs .provisionClick = (true, false) ↔ hasExistingMacs macs = true) ∧
      (hasExistingMacs macs = true ↔ ∃ m ∈ macs, m.status = .found) ∧
      (∀ ev, (uiStepMulti macs ev).2 =
        ((ev == .dialogProceed) || ((ev == .provisionClick) && !hasExistingMacs macs))) ∧
      (uiStepSingle mac .provisionClick = (false, true) ↔ singleHasFound mac = false) ∧
      (uiStepSingle mac .provisionClick = (true, false) ↔ singleHasFound mac = true) ∧
      (∀ ev, (uiStepSingle mac ev).2 =
        ((ev == .dialogProceed) || ((ev == .provisionClick) && !singleHasFound mac))) := by
  intro macs mac
  refine ⟨?_, ?_, ?_, ?_, ?_, ?_, ?_⟩
  · simp only [uiStepMulti]
    cases h : hasExistingMacs macs <;> simp [h]
  · simp only [uiStepMulti]
    cases h : hasExistingMacs macs <;> simp [h]
  · simp [hasExistingMacs, List.any_eq_true]
  · intro ev
    cases ev <;> cases h : hasExistingMacs macs <;> simp [uiStepMulti, h]
  · simp only [uiStepSingle]
    cases h : singleHasFound mac <;> simp [h]
  · simp only [uiStepSingle]
    cases h : singleHasFound mac <;> simp [h]
  · intro ev
    cases ev <;> cases h : singleHasFound mac <;> simp [uiStepSingle, h]

/-- Helper: over the whole pattern table, the merged classification's
retryability agrees with the fixed per-category table, and a
no-pattern-match input falls to the unknown default. -/
theorem classifyByPatterns_spec (err : JsError) (ctx : Option ErrorContext) :
    ((classifyByPatterns err ctx).isRetryable =
      retryableCategory (classifyByPatterns err ctx).category) ∧
    (matchesAnyPattern err ctx = false → classifyByPatterns err ctx = unknownClassified err) := by
  unfold matchesAnyPattern classifyByPatterns ERROR_PATTERNS
  simp only [firstPatternMatch, List.any_cons, List.any_nil]
  split_ifs <;>
    simp_all [mergeClassified, retryableCategory, unknownClassified]


/-- Helper: when no explicit status-code rule fires, `classifyError`
falls through to the pattern table. -/
theorem classifyError_no_status_rule (err : JsError) (ctx : Option ErrorContext)
    (h : statusRuleApplies ctx = false) :
    classifyError err ctx = classifyByPatterns err ctx := by
  unfold statusRuleApplies at h
  unfold classifyError
  cases htc : truthyStatusCode ctx with
  | none => rfl
  | some sc =>
    rw [htc] at h
    simp only [decide_eq_false_iff_not, not_or] at h
    obtain ⟨h1, h2, h3, h4⟩ := h
    dsimp only
    rw [if_neg h1, if_neg h2, if_neg]
    intro hc
    rcases hc with hc | hc
    · exact h3 hc
    · exact h4 hc

/-- C5: for every (error, context) pair, `isRetryable` of the
classification equals the fixed per-category table — true exactly for
network, server, timeout, config, unknown and false exactly for cors,
validation, auth, oui — so retryability is a function of the category
alone and never varies per instance; and an error matching no status
rule and no pattern entry is classified `unknown` with
`isRetryable = true`. -/
theorem classify_retryability_spec :
    ∀ (err : JsError) (ctx : Option ErrorContext),
      ((classifyError err ctx).isRetryable =
        retryableCategory (classifyError err ctx).category) ∧
      ((classifyError err ctx).isRetryable = true ↔
        ((classifyError err ctx).category = .network ∨
         (classifyError err ctx).category = .server ∨
         (classifyError err ctx).category = .timeout ∨
         (classifyError err ctx).category = .config ∨
         (classifyError err ctx).category = .unknown)) ∧
      ((classifyError err ctx).isRetryable = false ↔
        ((classifyError err ctx).category = .cors ∨
         (classifyError err ctx).category = .validation ∨
         (classifyError err ctx).category = .auth ∨
         (classifyError err ctx).category = .oui)) ∧
      (statusRuleApplies ctx = false → matchesAnyPattern err ctx = false →
        classifyError err ctx = unknownClassified err ∧
        (classifyError err ctx).category = .unknown ∧
        (classifyError err ctx).isRetryable = true) := by
  intro err ctx
  have hr : (classifyError err ctx).isRetryable =
      retryableCategory (classifyError err ctx).category := by
    unfold classifyError
    cases htc : truthyStatusCode ctx with
    | none => exact (classifyByPatterns_spec err ctx).1
    | some sc =>
      dsimp only
      split_ifs <;> first
        | rfl
        | exact (classifyByPatterns_spec err ctx).1
  refine ⟨hr, ?_, ?_, ?_⟩
  · rw [hr]
    cases hcat : (classifyError err ctx).category <;> simp [retryableCategory]
  · rw [hr]
    cases hcat : (classifyError err ctx).category <;> simp [retryableCategory]
  · intro hs hp
    have hfall := classifyError_no_status_rule err ctx hs
    have hu := (classifyByPatterns_spec err ctx).2 hp
    rw [hfall, hu]
    exact ⟨rfl, rfl, rfl⟩

/-- C5 witness: a concrete error matching no rule is `unknown` and
retryable, and the retryability table holds there. -/
theorem classify_retryability_spec_witness :
    (classifyError ⟨"Error", "zzz"⟩ none).category = ErrorCategory.unknown ∧
    (classifyError ⟨"Error", "zzz"⟩ none).isRetryable = true :=
  ((classify_retryability_spec ⟨"Error", "zzz"⟩ none).2.2.2 (by decide)
    (by decide)).2

/-- C1 is false as stated: with `context.type = 'oui'` and the message
`"timeout"` (which matches the timeout pattern of the table),
`classifyError` returns category `timeout`, not `oui` — the OUI rule
is the last entry of `ERROR_PATTERNS`, evaluated after the
message/name patterns, not before them. -/
theorem classify_oui_precedence_counterexample :
    (classifyError ⟨"Error", "timeout"⟩
      (some ⟨some .oui, none, none⟩)).category = .timeout ∧
    ¬ (classifyError ⟨"Error", "timeout"⟩
      (some ⟨some .oui, none, none⟩)).category = .oui := by decide

/-- C1 (amended): for a context with `type = 'oui'`, `classifyError`
returns category `oui` (not retryable) provided no explicit
status-code rule fires and none of the seven message/name pattern
entries preceding the OUI entry matches; the OUI rule is evaluated
after the message/name pattern table, not before it. -/
theorem classify_oui_context_spec :
    ∀ (err : JsError) (ctx : ErrorContext), ctx.type = some .oui →
      statusRuleApplies (some ctx) = false →
      matchesEarlierPattern err (some ctx) = false →
      (classifyError err (some ctx)).category = .oui ∧
      (classifyError err (some ctx)).isRetryable = false := by
  intro err ctx hty hs hp
  rw [classifyError_no_status_rule err (some ctx) hs]
  unfold matchesEarlierPattern ERROR_PATTERNS at hp
  simp only [List.take, List.any_cons, List.any_nil, Bool.or_eq_false_iff] at hp
  obtain ⟨hp1, hp2, hp3, hp4, hp5, hp6, hp7, _⟩ := hp
  unfold classifyByPatterns ERROR_PATTERNS
  simp only [firstPatternMatch, hp1, hp2, hp3, hp4, hp5, hp6, hp7,
    if_false, Bool.false_eq_true]
  rw [if_pos]
  · exact ⟨rfl, rfl⟩
  · simp [hty]

/-- C1 (amended) witness: the OUI-context classification at a concrete
non-matching message. -/
theorem classify_oui_context_spec_witness :
    (classifyError ⟨"Error", "OUI not in approved list"⟩
      (some ⟨some .oui, none, none⟩)).category = .oui ∧
    (classifyError ⟨"Error", "OUI not in approved list"⟩
      (some ⟨some .oui, none, none⟩)).isRetryable = false :=
  classify_oui_context_spec ⟨"Error", "OUI not in approved list"⟩
    ⟨some .oui, none, none⟩ rfl (by decide) (by decide)


/-- Helper: a status-400 response classifies as `validation`
regardless of body or context. -/
theorem createErrorFromResponse_validation (r : HttpResponse)
    (ctx : Option ErrorContext) (h : r.status = 400) :
    (createErrorFromResponse r ctx).category = .validation ∧
    (createErrorFromResponse r ctx).isRetryable = false := by
  unfold createErrorFromResponse classifyError truthyStatusCode
  cases ctx <;> dsimp only <;> rw [h] <;> norm_num

/-- Helper: a 5xx response classifies as `server` regardless of body
or context. -/
theorem createErrorFromResponse_server (r : HttpResponse)
    (ctx : Option ErrorContext) (h : 500 ≤ r.status) :
    (createErrorFromResponse r ctx).category = .server ∧
    (createErrorFromResponse r ctx).isRetryable = true := by
  unfold createErrorFromResponse classifyError truthyStatusCode
  have h0 : ¬ r.status = 0 := by omega
  cases ctx <;> simp [h0, h]

/-- Helper: the synthetic abort error `new Error('Request timed out')`
classifies as `timeout` under any status-free context. -/
theorem classify_request_timed_out (ctx : ErrorContext)
    (h : ctx.statusCode = none) :
    classifyErrorStr "Request timed out" (some ctx) =
      { category := .timeout, title := "Request Timeout",
        message := "The server took too long to respond.",
        likelyCause := "The server may be overloaded or the network is slow.",
        suggestion := "Wait a moment and try again. If the problem persists, contact support.",
        technicalDetail := some "Request timed out", isRetryable := true } := by
  unfold classifyErrorStr classifyError truthyStatusCode
  simp only [h]
  unfold classifyByPatterns ERROR_PATTERNS
  simp only [firstPatternMatch, regexEntryMatch]
  rw [if_neg (by decide), if_neg (by decide), if_pos (by decide)]
  rfl


/-- C3: `addHsd` never rejects — for every request it produces a
`ProvisionResponse` outcome in both modes (stub mode is the pure
`stubAddHsd`, whose failures always carry a classified error; real
mode runs the fetch attempt under a catch-all). In real mode an HTTP
400 response yields a failure outcome of category `validation`, a 5xx
response a failure outcome of category `server`, a thrown abort is
converted into a failure outcome of category `timeout`, and any other
thrown exception is also converted into a failure outcome carrying a
classified error rather than propagated. -/
theorem addHsd_outcome_spec :
    ∀ (cfg : ApiConfig) (req : ProvisionRequest) (outcome : FetchOutcome)
      (r4 r5 : HttpResponse) (e : JsError),
      (cfg.enableStubMode = true → addHsd cfg req outcome = stubAddHsd req ∧
        ((stubAddHsd req).success = true ∧ (stubAddHsd req).error = none ∨
         (stubAddHsd req).success = false ∧ (stubAddHsd req).error.isSome = true)) ∧
      (cfg.enableStubMode = false → r4.status = 400 →
        (addHsd cfg req (.response r4)).success = false ∧
        (addHsd cfg req (.response r4)).error.map ClassifiedError.category =
          some .validation) ∧
      (cfg.enableStubMode = false → 500 ≤ r5.status →
        (addHsd cfg req (.response r5)).success = false ∧
        (addHsd cfg req (.response r5)).error.map ClassifiedError.category =
          some .server) ∧
      (cfg.enableStubMode = false → e.name = "AbortError" →
        (addHsd cfg req (.fetchThrow e)).success = false ∧
        (addHsd cfg req (.fetchThrow e)).error.map ClassifiedError.category =
          some .timeout) ∧
      (cfg.enableStubMode = false →
        (addHsd cfg req (.fetchThrow e)).success = false ∧
        (addHsd cfg req (.fetchThrow e)).error.isSome = true) := by
  intro cfg req outcome r4 r5 e
  refine ⟨?_, ?_, ?_, ?_, ?_⟩
  · intro hstub
    refine ⟨by unfold addHsd; rw [if_pos hstub], ?_⟩
    unfold stubAddHsd
    dsimp only
    split_ifs <;> simp
  · intro hreal h4
    have hok : r4.respOk = false := by
      simp [HttpResponse.respOk, h4]
    have hcat := (createErrorFromResponse_validation r4
      (some (addHsdContext cfg)) h4).1
    unfold addHsd addHsdReal addHsdAttempt
    rw [if_neg (by simp [hreal])]
    simp [hok, hcat]
  · intro hreal h5
    have hok : r5.respOk = false := by
      simp only [HttpResponse.respOk]
      simp only [decide_eq_false_iff_not]
      omega
    have hcat := (createErrorFromResponse_server r5
      (some (addHsdContext cfg)) h5).1
    unfold addHsd addHsdReal addHsdAttempt
    rw [if_neg (by simp [hreal])]
    simp [hok, hcat]
  · intro hreal habort
    have ht := classify_request_timed_out (addHsdContext cfg) rfl
    unfold classifyErrorStr at ht
    unfold addHsd addHsdReal addHsdAttempt addHsdCatch
    rw [if_neg (by simp [hreal])]
    simp [habort, classifyErrorStr, ht]
  · intro hreal
    unfold addHsd addHsdReal addHsdAttempt addHsdCatch
    rw [if_neg (by simp [hreal])]
    by_cases hn : e.name = "AbortError" <;> simp [hn]

/-- C3 witness: concrete real/stub instantiations discharging every
hypothesis of `addHsd_outcome_spec`. -/
theorem addHsd_outcome_spec_witness :
    (addHsd ⟨"", true, 0, 0⟩ ⟨"00:00:00:00:00:06", "a", "c", "i"⟩
        (.fetchThrow ⟨"AbortError", "Aborted"⟩) =
      stubAddHsd ⟨"00:00:00:00:00:06", "a", "c", "i"⟩) ∧
    (addHsd ⟨"", false, 0, 0⟩ ⟨"00:00:00:00:00:06", "a", "c", "i"⟩
        (.response ⟨400, "Bad Request", .empty⟩)).error.map
      ClassifiedError.category = some .validation ∧
    (addHsd ⟨"", false, 0, 0⟩ ⟨"00:00:00:00:00:06", "a", "c", "i"⟩
        (.response ⟨500, "Internal Server Error", .empty⟩)).error.map
      ClassifiedError.category = some .server ∧
    (addHsd ⟨"", false, 0, 0⟩ ⟨"00:00:00:00:00:06", "a", "c", "i"⟩
        (.fetchThrow ⟨"AbortError", "Aborted"⟩)).error.map
      ClassifiedError.category = some .timeout ∧
    (addHsd ⟨"", false, 0, 0⟩ ⟨"00:00:00:00:00:06", "a", "c", "i"⟩
        (.fetchThrow ⟨"AbortError", "Aborted"⟩)).error.isSome = true := by
  have h := addHsd_outcome_spec ⟨"", true, 0, 0⟩
    ⟨"00:00:00:00:00:06", "a", "c", "i"⟩
    (.fetchThrow ⟨"AbortError", "Aborted"⟩)
    ⟨400, "Bad Request", .empty⟩ ⟨500, "Internal Server Error", .empty⟩
    ⟨"AbortError", "Aborted"⟩
  have h2 := addHsd_outcome_spec ⟨"", false, 0, 0⟩
    ⟨"00:00:00:00:00:06", "a", "c", "i"⟩
    (.fetchThrow ⟨"AbortError", "Aborted"⟩)
    ⟨400, "Bad Request", .empty⟩ ⟨500, "Internal Server Error", .empty⟩
    ⟨"AbortError", "Aborted"⟩
  exact ⟨(h.1 rfl).1, (h2.2.1 rfl rfl).2, (h2.2.2.1 rfl (by norm_num)).2,
    (h2.2.2.2.1 rfl rfl).2, (h2.2.2.2.2 rfl).2⟩


/-- C4 is false as stated: in stub mode `searchByMac` returns
`stubSearchByMac(mac)` before entering the `try` block, so the
simulated server error for `00:00:00:00:00:07` (divisible by 7, not by
21) rejects with a plain `Error` that carries no `ClassifiedError`. -/
theorem searchByMac_stub_unclassified_counterexample :
    searchByMac ⟨"", true, 0, 0⟩ "00:00:00:00:00:07"
      (.response ⟨200, "OK", .jsonRecords []⟩) =
    .error (.plain ⟨"Error", "Simulated server error (5xx)"⟩) := by decide

/-- C4 (amended): in REAL mode every failure of `searchByMac` rejects
with an error carrying a `ClassifiedError`; an aborted request is
reclassified as category `timeout` even though the underlying signal
was a generic abort; a non-2xx response rejects with the classified
error built from the response attached. In STUB mode the simulated
server error (MAC divisible by 7 but not by 21) rejects with a plain
`Error` carrying no classification — the page-level caller classifies
it instead. -/
theorem searchByMac_failures_spec :
    ∀ (cfg : ApiConfig) (mac : String) (outcome : FetchOutcome)
      (r : HttpResponse) (e : JsError),
      (cfg.enableStubMode = false → ∀ f, searchByMac cfg mac outcome = .error f →
        ∃ ct, f = .classified ct) ∧
      (cfg.enableStubMode = false → e.name = "AbortError" →
        searchByMac cfg mac (.fetchThrow e) =
          .error (.classified ⟨"The server took too long to respond.",
            { category := .timeout, title := "Request Timeout",
              message := "The server took too long to respond.",
              likelyCause := "The server may be overloaded or the network is slow.",
              suggestion := "Wait a moment and try again. If the problem persists, contact support.",
              technicalDetail := some "Request timed out", isRetryable := true }⟩)) ∧
      (cfg.enableStubMode = false → r.respOk = false →
        searchByMac cfg mac (.response r) =
          .error (.classified
            ⟨(createErrorFromResponse r (some (searchContext cfg mac))).message,
             createErrorFromResponse r (some (searchContext cfg mac))⟩)) ∧
      (cfg.enableStubMode = true →
        jsModZero (parseIntHex (stripColons mac)) 7 = true →
        jsModZero (parseIntHex (stripColons mac)) 21 = false →
        searchByMac cfg mac outcome =
          .error (.plain ⟨"Error", "Simulated server error (5xx)"⟩)) := by
  intro cfg mac outcome r e
  refine ⟨?_, ?_, ?_, ?_⟩
  · intro hreal f hf
    unfold searchByMac at hf
    rw [if_neg (by simp [hreal])] at hf
    cases hres : searchByMacReal cfg mac outcome with
    | ok l => rw [hres] at hf; simp [Except.mapError] at hf
    | error t =>
      rw [hres] at hf
      simp only [Except.mapError] at hf
      exact ⟨t, by injection hf with h; exact h.symm⟩
  · intro hreal habort
    have ht := classify_request_timed_out (searchContext cfg mac) rfl
    unfold classifyErrorStr at ht
    unfold searchByMac searchByMacReal searchAttempt searchCatch
    rw [if_neg (by simp [hreal])]
    simp [habort, classifyErrorStr, ht, Except.mapError]
  · intro hreal hok
    unfold searchByMac searchByMacReal searchAttempt searchCatch
    rw [if_neg (by simp [hreal])]
    simp [hok, Except.mapError]
  · intro hstub h7 h21
    unfold searchByMac stubSearchByMac
    rw [if_pos hstub]
    simp [h7, h21, Except.mapError]

/-- C4 (amended) witness: concrete instantiations discharging every
hypothesis of `searchByMac_failures_spec`. -/
theorem searchByMac_failures_spec_witness :
    (∃ ct, SearchFailure.classified
      ⟨"The server took too long to respond.",
        { category := .timeout, title := "Request Timeout",
          message := "The server took too long to respond.",
          likelyCause := "The server may be overloaded or the network is slow.",
          suggestion := "Wait a moment and try again. If the problem persists, contact support.",
          technicalDetail := some "Request timed out", isRetryable := true }⟩ =
      SearchFailure.classified ct) ∧
    searchByMac ⟨"", false, 0, 0⟩ "AA:BB:CC:DD:EE:FF"
      (.fetchThrow ⟨"AbortError", "Aborted"⟩) =
      .error (.classified ⟨"The server took too long to respond.",
        { category := .timeout, title := "Request Timeout",
          message := "The server took too long to respond.",
          likelyCause := "The server may be overloaded or the network is slow.",
          suggestion := "Wait a moment and try again. If the problem persists, contact support.",
          technicalDetail := some "Request timed out", isRetryable := true }⟩) ∧
    searchByMac ⟨"", true, 0, 0⟩ "00:00:00:00:00:07"
      (.response ⟨404, "Not Found", .empty⟩) =
      .error (.plain ⟨"Error", "Simulated server error (5xx)"⟩) := by
  have h1 := searchByMac_failures_spec ⟨"", false, 0, 0⟩ "AA:BB:CC:DD:EE:FF"
    (.fetchThrow ⟨"AbortError", "Aborted"⟩) ⟨404, "Not Found", .empty⟩
    ⟨"AbortError", "Aborted"⟩
  have h2 := searchByMac_failures_spec ⟨"", true, 0, 0⟩ "00:00:00:00:00:07"
    (.response ⟨404, "Not Found", .empty⟩) ⟨404, "Not Found", .empty⟩
    ⟨"AbortError", "Aborted"⟩
  have habort := h1.2.1 rfl rfl
  exact ⟨h1.1 rfl _ habort, habort, h2.2.2.2 rfl (by decide) (by decide)⟩


/-- Helper: the generation loop always returns a well-formed result —
on success a `macs` list and no error, on failure no list and a
non-empty overflow message. -/
theorem genLoop_shape : ∀ (base i rounds : Nat) (acc : List String),
    ((genLoop base i rounds acc).success = true ∧
      (genLoop base i rounds acc).macs.isSome = true ∧
      (genLoop base i rounds acc).error = none) ∨
    ((genLoop base i rounds acc).success = false ∧
      (genLoop base i rounds acc).macs = none ∧
      ∃ m, (genLoop base i rounds acc).error = some m ∧ m ≠ "")
  | base, i, 0, acc => Or.inl ⟨rfl, rfl, rfl⟩
  | base, i, rounds + 1, acc => by
    unfold genLoop
    dsimp only
    split_ifs with h
    · refine Or.inr ⟨rfl, rfl, _, rfl, ?_⟩
      intro hc
      have := congrArg String.data hc
      simp [String.data_append] at this
    · exact genLoop_shape base (i + 1) rounds (acc ++ [formatMac (base + i)])

/-- Helper: a failed base interpretation yields the caught-exception
result. -/
theorem generateSequentialMacs_parse_none (input : String)
    (hp : jsBigIntHex (stripColons input) = none) :
    generateSequentialMacs input =
      { success := false, macs := none,
        error := some ("Failed to generate sequential MACs: " ++
          bigIntErrorMessage (stripColons input)) } := by
  unfold generateSequentialMacs
  dsimp only
  rw [hp]

/-- Helper: a parsed base runs the generation loop. -/
theorem generateSequentialMacs_parse_some (input : String) (b : Nat)
    (hp : jsBigIntHex (stripColons input) = some b) :
    generateSequentialMacs input = genLoop b 0 4 [] := by
  unfold generateSequentialMacs
  dsimp only
  rw [hp]

/-- C10: `generateSequentialMacs` is total — for every input string
(empty and non-hex included) it returns a well-formed
`MacGenerationResult`: a failed base-address interpretation (the
caught `BigInt` exception) yields `success = false` with a non-empty
error message and no `macs` list, and in general `success = false`
results carry a non-empty error and no list while `success = true`
results carry a list and no error. -/
theorem generateSequentialMacs_total_spec :
    ∀ (input : String),
      (jsBigIntHex (stripColons input) = none →
        generateSequentialMacs input =
          { success := false, macs := none,
            error := some ("Failed to generate sequential MACs: " ++
              bigIntErrorMessage (stripColons input)) }) ∧
      ((generateSequentialMacs input).success = true →
        (generateSequentialMacs input).macs.isSome = true ∧
        (generateSequentialMacs input).error = none) ∧
      ((generateSequentialMacs input).success = false →
        (generateSequentialMacs input).macs = none ∧
        ∃ m, (generateSequentialMacs input).error = some m ∧ m ≠ "") := by
  intro input
  refine ⟨generateSequentialMacs_parse_none input, ?_, ?_⟩
  · intro hs
    cases hp : jsBigIntHex (stripColons input) with
    | none =>
      rw [generateSequentialMacs_parse_none input hp] at hs
      simp at hs
    | some b =>
      rw [generateSequentialMacs_parse_some input b hp] at hs ⊢
      rcases genLoop_shape b 0 4 [] with ⟨_, h2, h3⟩ | ⟨h1, _, _⟩
      · exact ⟨h2, h3⟩
      · simp [h1] at hs
  · intro hs
    cases hp : jsBigIntHex (stripColons input) with
    | none =>
      rw [generateSequentialMacs_parse_none input hp] at hs ⊢
      refine ⟨rfl, _, rfl, ?_⟩
      intro hc
      have := congrArg String.data hc
      simp [String.data_append] at this
    | some b =>
      rw [generateSequentialMacs_parse_some input b hp] at hs ⊢
      rcases genLoop_shape b 0 4 [] with ⟨h1, _, _⟩ | ⟨_, h2, h3⟩
      · simp [h1] at hs
      · exact ⟨h2, h3⟩

/-- C10 witness: the empty input (failed BigInt conversion) and a
valid base, discharging the hypotheses of
`generateSequentialMacs_total_spec`. -/
theorem generateSequentialMacs_total_spec_witness :
    generateSequentialMacs "" =
      { success := false, macs := none,
        error := some ("Failed to generate sequential MACs: " ++
          bigIntErrorMessage (stripColons "")) } ∧
    ((generateSequentialMacs "").macs = none ∧
      ∃ m, (generateSequentialMacs "").error = some m ∧ m ≠ "") ∧
    ((generateSequentialMacs "00:00:00:00:00:01").macs.isSome = true ∧
      (generateSequentialMacs "00:00:00:00:00:01").error = none) :=
  ⟨(generateSequentialMacs_total_spec "").1 (by decide),
   (generateSequentialMacs_total_spec "").2.2 (by decide),
   (generateSequentialMacs_total_spec "00:00:00:00:00:01").2.1 (by decide)⟩


/-! ### Character-level lemmas for normalization and formatting -/

/-- `Char.ofNat` round-trips on the basic multilingual plane. -/
theorem toNat_charOfNat (m : Nat) (h : m < 55296) : (Char.ofNat m).toNat = m := by
  have hv : m.isValidChar := Or.inl h
  simp only [Char.ofNat, hv, dif_pos, Char.ofNatAux, Char.toNat]
  simp [UInt32.ofNat', UInt32.toNat]

theorem isUpperHexChar_iff (c : Char) :
    isUpperHexChar c = true ↔
      (48 ≤ c.toNat ∧ c.toNat ≤ 57) ∨ (65 ≤ c.toNat ∧ c.toNat ≤ 70) := by
  simp [isUpperHexChar]

theorem isHexChar_iff (c : Char) :
    isHexChar c = true ↔
      (48 ≤ c.toNat ∧ c.toNat ≤ 57) ∨ (65 ≤ c.toNat ∧ c.toNat ≤ 70) ∨
        (97 ≤ c.toNat ∧ c.toNat ≤ 102) := by
  simp [isHexChar]

/-- Uppercasing a hex digit yields an uppercase hex digit. -/
theorem charToUpper_hex_upper (c : Char) (h : isHexChar c = true) :
    isUpperHexChar (charToUpper c) = true := by
  rw [isHexChar_iff] at h
  unfold charToUpper
  rcases h with h | h | h
  · rw [if_neg (by omega), isUpperHexChar_iff]; omega
  · rw [if_neg (by omega), isUpperHexChar_iff]; omega
  · rw [if_pos (by omega), isUpperHexChar_iff, toNat_charOfNat _ (by omega)]
    omega

/-- Uppercasing fixes uppercase hex digits. -/
theorem charToUpper_of_upper (c : Char) (h : isUpperHexChar c = true) :
    charToUpper c = c := by
  rw [isUpperHexChar_iff] at h
  unfold charToUpper
  rw [if_neg (by omega)]

theorem upperHex_isHex (c : Char) (h : isUpperHexChar c = true) :
    isHexChar c = true := by
  rw [isUpperHexChar_iff] at h
  rw [isHexChar_iff]
  omega

theorem upperHex_ne_colon (c : Char) (h : isUpperHexChar c = true) : c ≠ ':' := by
  intro hc
  subst hc
  revert h
  decide

/-- Filtering `insertColons l` with a predicate that holds on `l` and
rejects the colon recovers `l`. -/
theorem filter_insertColons (p : Char → Bool) (hcolon : p ':' = false) :
    ∀ l : List Char, (∀ c ∈ l, p c = true) → (insertColons l).filter p = l
  | [], _ => rfl
  | [a], h => by
    simp [insertColons, List.filter, h a (by simp)]
  | a :: b :: rest, h => by
    unfold insertColons
    by_cases hr : rest = []
    · subst hr
      simp [List.filter, h a (by simp), h b (by simp)]
    · rw [if_neg hr]
      have ha := h a (by simp)
      have hb := h b (by simp)
      have hrest := filter_insertColons p hcolon rest
        (fun c hc => h c (by simp [hc]))
      simp [List.filter, ha, hb, hcolon, hrest]

/-- Mapping `charToUpper` over uppercase hex digits is the identity. -/
theorem map_charToUpper_of_upper :
    ∀ l : List Char, (∀ c ∈ l, isUpperHexChar c = true) →
      l.map charToUpper = l
  | [], _ => rfl
  | a :: t, h => by
    simp only [List.map_cons, charToUpper_of_upper a (h a (by simp)),
      map_charToUpper_of_upper t (fun c hc => h c (by simp [hc]))]

/-- C9: `normalizeMac` is idempotent on every input carrying exactly 12
hexadecimal digits, whatever separator style or case the input uses. -/
theorem normalizeMac_idempotent :
    ∀ x : String, (x.data.filter isHexChar).length = 12 →
      normalizeMac (normalizeMac x) = normalizeMac x := by
  intro x h12
  have hlen : ((x.data.filter isHexChar).map charToUpper).length = 12 := by
    simp [h12]
  have hupper : ∀ c ∈ (x.data.filter isHexChar).map charToUpper,
      isUpperHexChar c = true := by
    intro c hcmem
    obtain ⟨d, hd, rfl⟩ := List.mem_map.1 hcmem
    exact charToUpper_hex_upper d (List.mem_filter.1 hd).2
  have h1 : normalizeMac x =
      String.mk (insertColons ((x.data.filter isHexChar).map charToUpper)) := by
    unfold normalizeMac
    dsimp only
    rw [if_pos hlen]
  have hfil : (insertColons ((x.data.filter isHexChar).map charToUpper)).filter
      isHexChar = (x.data.filter isHexChar).map charToUpper :=
    filter_insertColons isHexChar (by decide) _
      (fun c hc => upperHex_isHex c (hupper c hc))
  rw [h1]
  unfold normalizeMac
  dsimp only
  rw [hfil, map_charToUpper_of_upper _ hupper, if_pos hlen]

/-- C9 witness: a dotted lowercase input. -/
theorem normalizeMac_idempotent_witness :
    normalizeMac (normalizeMac "aabb.ccdd.eeff") = normalizeMac "aabb.ccdd.eeff" :=
  normalizeMac_idempotent "aabb.ccdd.eeff" (by decide)


/-! ### Round-trip lemmas for `formatMac` -/

theorem hexDigitChar_val : ∀ d, d < 16 →
    hexCharVal (charToUpper (hexDigitChar d)) = d := by decide

theorem hexDigitChar_upper : ∀ d, d < 16 →
    isUpperHexChar (charToUpper (hexDigitChar d)) = true := by decide

/-- The uppercased digits of `toHexRev` decode back to the number. -/
theorem valRevHex_toHexRev : ∀ (fuel n : Nat), n < 16 ^ fuel →
    valRevHex ((toHexRev fuel n).map charToUpper) = n
  | 0, n, h => by
    have : n = 0 := by simpa using h
    subst this
    rfl
  | fuel + 1, n, h => by
    unfold toHexRev
    by_cases h16 : n < 16
    · rw [if_pos h16]
      simp [valRevHex, hexDigitChar_val n h16]
    · rw [if_neg h16]
      have hdiv : n / 16 < 16 ^ fuel := by
        rw [Nat.div_lt_iff_lt_mul (by omega)]
        calc n < 16 ^ (fuel + 1) := h
        _ = 16 ^ fuel * 16 := by rw [pow_succ]
      simp only [List.map_cons, valRevHex]
      rw [hexDigitChar_val _ (Nat.mod_lt n (by omega)),
        valRevHex_toHexRev fuel (n / 16) hdiv]
      omega

/-- Digit-count bound for `toHexRev`. -/
theorem toHexRev_length : ∀ (fuel n k : Nat), n < 16 ^ k → 0 < k →
    (toHexRev fuel n).length ≤ k
  | 0, n, k, _, _ => by simp [toHexRev]
  | fuel + 1, n, k, h, hk => by
    unfold toHexRev
    by_cases h16 : n < 16
    · rw [if_pos h16]
      simpa using hk
    · rw [if_neg h16]
      have hk2 : 2 ≤ k := by
        by_contra hcon
        have hk1 : k = 1 := by omega
        subst hk1
        simp at h
        omega
      have hdiv : n / 16 < 16 ^ (k - 1) := by
        rw [Nat.div_lt_iff_lt_mul (by omega)]
        calc n < 16 ^ k := h
        _ = 16 ^ (k - 1) * 16 := by
            rw [← pow_succ]
            congr 1
            omega
      have := toHexRev_length fuel (n / 16) (k - 1) hdiv (by omega)
      simp only [List.length_cons]
      omega

/-- Every uppercased digit of `toHexRev` is an uppercase hex digit. -/
theorem toHexRev_upper : ∀ (fuel n : Nat) (c : Char),
    c ∈ (toHexRev fuel n).map charToUpper → isUpperHexChar c = true
  | 0, n, c, h => by simp [toHexRev] at h
  | fuel + 1, n, c, h => by
    unfold toHexRev at h
    by_cases h16 : n < 16
    · rw [if_pos h16] at h
      simp at h
      subst h
      exact hexDigitChar_upper n h16
    · rw [if_neg h16] at h
      simp only [List.map_cons, List.mem_cons] at h
      rcases h with h | h
      · subst h
        exact hexDigitChar_upper _ (Nat.mod_lt n (by omega))
      · exact toHexRev_upper fuel (n / 16) c (by simpa using h)

/-- LSB-first decoding is MSB-first decoding of the reverse. -/
theorem valRevHex_eq : ∀ l : List Char, valRevHex l = hexListVal l.reverse
  | [] => rfl
  | c :: t => by
    simp only [valRevHex, valRevHex_eq t, List.reverse_cons]
    unfold hexListVal
    rw [List.foldl_append]
    simp only [List.foldl_cons, List.foldl_nil]
    omega

theorem hexListVal_padStart12 (l : List Char) :
    hexListVal (padStart12 l) = hexListVal l := by
  have h0 : hexCharVal (Char.ofNat 48) = 0 := by decide
  unfold padStart12 hexListVal
  rw [List.foldl_append]
  have hz : ∀ m : Nat, List.foldl (fun acc c => 16 * acc + hexCharVal c) 0
      (List.replicate m (Char.ofNat 48)) = 0 := by
    intro m
    induction m with
    | zero => rfl
    | succ m ih => simpa [List.replicate_succ, h0] using ih
  have : ('0' : Char) = Char.ofNat 48 := by decide
  rw [this, hz]

/-- A 12-character uppercase-hex list, colon-grouped, satisfies the
strict canonical-format regex. -/
theorem validateMacFormat_insertColons :
    ∀ l : List Char, l.length = 12 → (∀ c ∈ l, isUpperHexChar c = true) →
      validateMacFormat (String.mk (insertColons l)) = true := by
  intro l hlen hupper
  rcases l with _ | ⟨a, _ | ⟨b, _ | ⟨c, _ | ⟨d, _ | ⟨e, _ | ⟨f, _ | ⟨g, _ |
    ⟨h2, _ | ⟨i, _ | ⟨j, _ | ⟨k, _ | ⟨m, _ | ⟨x, t⟩⟩⟩⟩⟩⟩⟩⟩⟩⟩⟩⟩⟩ <;>
      simp at hlen
  have Ha := hupper a (by simp)
  have Hb := hupper b (by simp)
  have Hc := hupper c (by simp)
  have Hd := hupper d (by simp)
  have He := hupper e (by simp)
  have Hf := hupper f (by simp)
  have Hg := hupper g (by simp)
  have Hh := hupper h2 (by simp)
  have Hi := hupper i (by simp)
  have Hj := hupper j (by simp)
  have Hk := hupper k (by simp)
  have Hm := hupper m (by simp)
  simp [insertColons, validateMacFormat, Ha, Hb, Hc, Hd, He, Hf, Hg, Hh,
    Hi, Hj, Hk, Hm]


/-- Every character of the padded uppercased hex representation is an
uppercase hex digit. -/
theorem padded_formatMac_upper (v : Nat) :
    ∀ c ∈ padStart12 ((toHexStr v).map charToUpper), isUpperHexChar c = true := by
  intro c hc
  unfold padStart12 at hc
  rcases List.mem_append.1 hc with hc | hc
  · have := List.eq_of_mem_replicate hc
    subst this
    decide
  · unfold toHexStr at hc
    rw [List.map_reverse] at hc
    exact toHexRev_upper (v + 1) v c (by simpa using hc)

theorem padded_formatMac_length (v : Nat) (hv : v ≤ macOverflowLimit) :
    (padStart12 ((toHexStr v).map charToUpper)).length = 12 := by
  have hpow : v < 16 ^ 12 := by
    have h16 : (16 : Nat) ^ 12 = 281474976710656 := by norm_num
    unfold macOverflowLimit at hv
    omega
  have hle : ((toHexStr v).map charToUpper).length ≤ 12 := by
    unfold toHexStr
    simp only [List.length_map, List.length_reverse]
    exact toHexRev_length (v + 1) v 12 hpow (by norm_num)
  unfold padStart12
  simp only [List.length_append, List.length_replicate]
  omega

/-- Reading a formatted MAC back as an integer recovers the value
(the fuel `v + 1` always suffices, so no bound on `v` is needed). -/
theorem macValue_formatMac (v : Nat) :
    macValue (formatMac v) = v := by
  unfold macValue formatMac stripColons
  have hupper := padded_formatMac_upper v
  have hfil := filter_insertColons (fun c => decide ¬(c = ':')) (by decide)
    (padStart12 ((toHexStr v).map charToUpper))
    (fun c hc => by simp [upperHex_ne_colon c (hupper c hc)])
  rw [show (String.mk (insertColons (padStart12 ((toHexStr v).map
    charToUpper)))).data = insertColons (padStart12 ((toHexStr v).map
    charToUpper)) from rfl]
  rw [hfil, hexListVal_padStart12]
  have hmr : (toHexStr v).map charToUpper =
      ((toHexRev (v + 1) v).map charToUpper).reverse := by
    unfold toHexStr
    rw [List.map_reverse]
  rw [hmr, ← valRevHex_eq]
  apply valRevHex_toHexRev
  have h1 := Nat.lt_pow_self (show 1 < 16 by omega) v
  have h2 := Nat.pow_le_pow_right (show 1 ≤ 16 by omega)
    (show v ≤ v + 1 by omega)
  exact lt_of_lt_of_le h1 h2

/-- A formatted MAC satisfies the strict canonical format. -/
theorem validateMacFormat_formatMac (v : Nat) (hv : v ≤ macOverflowLimit) :
    validateMacFormat (formatMac v) = true := by
  unfold formatMac
  exact validateMacFormat_insertColons _ (padded_formatMac_length v hv)
    (padded_formatMac_upper v)


/-- Helper: the four-iteration loop succeeds when the last member
fits, producing exactly the four consecutive formatted addresses. -/
theorem genLoop_success (base : Nat) (h : base + 3 ≤ macOverflowLimit) :
    genLoop base 0 4 [] =
      { success := true,
        macs := some [formatMac base, formatMac (base + 1),
          formatMac (base + 2), formatMac (base + 3)],
        error := none } := by
  have h0 : ¬ base + 0 > macOverflowLimit := by omega
  have h1 : ¬ base + 1 > macOverflowLimit := by omega
  have h2 : ¬ base + 2 > macOverflowLimit := by omega
  have h3 : ¬ base + 3 > macOverflowLimit := by omega
  simp only [genLoop]
  rw [if_neg h0, if_neg h1, if_neg h2, if_neg h3]
  simp

/-- Helper: the loop fails atomically at the first overflowing offset,
returning no list. -/
theorem genLoop_overflow (base : Nat) :
    ∀ i, i < 4 → base + i > macOverflowLimit →
    (∀ j, j < i → base + j ≤ macOverflowLimit) →
    genLoop base 0 4 [] =
      { success := false, macs := none,
        error := some ("MAC overflow: Cannot generate MAC +" ++ toString i ++
          " (exceeds 48-bit limit)") } := by
  intro i hi hover hprev
  interval_cases i
  · simp only [genLoop]
    rw [if_pos hover]
  · have g0 : ¬ base + 0 > macOverflowLimit := by
      have := hprev 0 (by omega)
      omega
    simp only [genLoop]
    rw [if_neg g0, if_pos hover]
  · have g0 : ¬ base + 0 > macOverflowLimit := by
      have := hprev 0 (by omega)
      omega
    have g1 : ¬ base + 1 > macOverflowLimit := by
      have := hprev 1 (by omega)
      omega
    simp only [genLoop]
    rw [if_neg g0, if_neg g1, if_pos hover]
  · have g0 : ¬ base + 0 > macOverflowLimit := by
      have := hprev 0 (by omega)
      omega
    have g1 : ¬ base + 1 > macOverflowLimit := by
      have := hprev 1 (by omega)
      omega
    have g2 : ¬ base + 2 > macOverflowLimit := by
      have := hprev 2 (by omega)
      omega
    simp only [genLoop]
    rw [if_neg g0, if_neg g1, if_neg g2, if_pos hover]

/-- C2: interpreting the base as a 48-bit big-endian integer `b`
(arbitrary-precision `Nat`), when `b + 3 ≤ 0xFFFFFFFFFFFF` the
generator succeeds with exactly the four canonical colon-separated
uppercase addresses of values `b, b+1, b+2, b+3` (strictly increasing,
each satisfying the strict format check and decoding back to its
value); when offset `i < 4` is the first to exceed `0xFFFFFFFFFFFF`
the generator fails atomically with the overflow error naming offset
`i` and no partial list — it never wraps; in particular
`generateSequentialMacs "FF:FF:FF:FF:FF:FF"` fails at offset 1 with no
partial sequence. (The implementation fixes the count at 4.) -/
theorem generateSequentialMacs_spec :
    ∀ (baseMac : String) (b i : Nat),
      (jsBigIntHex (stripColons baseMac) = some b → b + 3 ≤ macOverflowLimit →
        generateSequentialMacs baseMac =
          { success := true,
            macs := some [formatMac b, formatMac (b + 1), formatMac (b + 2),
              formatMac (b + 3)],
            error := none } ∧
        (∀ j, j ≤ 3 → macValue (formatMac (b + j)) = b + j ∧
          validateMacFormat (formatMac (b + j)) = true) ∧
        (∀ j, j < 3 →
          macValue (formatMac (b + j)) < macValue (formatMac (b + (j + 1))))) ∧
      (jsBigIntHex (stripColons baseMac) = some b → i < 4 →
        b + i > macOverflowLimit →
        (∀ j, j < i → b + j ≤ macOverflowLimit) →
        generateSequentialMacs baseMac =
          { success := false, macs := none,
            error := some ("MAC overflow: Cannot generate MAC +" ++ toString i ++
              " (exceeds 48-bit limit)") }) ∧
      generateSequentialMacs "FF:FF:FF:FF:FF:FF" =
        { success := false, macs := none,
          error := some "MAC overflow: Cannot generate MAC +1 (exceeds 48-bit limit)" } := by
  intro baseMac b i
  refine ⟨?_, ?_, by decide⟩
  · intro hp hb
    refine ⟨?_, ?_, ?_⟩
    · rw [generateSequentialMacs_parse_some baseMac b hp]
      exact genLoop_success b hb
    · intro j hj
      exact ⟨macValue_formatMac (b + j),
        validateMacFormat_formatMac (b + j) (by omega)⟩
    · intro j hj
      rw [macValue_formatMac, macValue_formatMac]
      omega
  · intro hp hi hover hprev
    rw [generateSequentialMacs_parse_some baseMac b hp]
    exact genLoop_overflow b i hi hover hprev

/-- C2 witness: a small base exercising the success conjunct and the
maximal base exercising the overflow conjunct. -/
theorem generateSequentialMacs_spec_witness :
    generateSequentialMacs "00:00:00:00:00:01" =
      { success := true,
        macs := some [formatMac 1, formatMac 2, formatMac 3, formatMac 4],
        error := none } ∧
    (macValue (formatMac (1 + 3)) = 1 + 3 ∧
      validateMacFormat (formatMac (1 + 3)) = true) ∧
    macValue (formatMac (1 + 0)) < macValue (formatMac (1 + 1)) ∧
    generateSequentialMacs "FF:FF:FF:FF:FF:FF" =
      { success := false, macs := none,
        error := some "MAC overflow: Cannot generate MAC +1 (exceeds 48-bit limit)" } := by
  have h1 := (generateSequentialMacs_spec "00:00:00:00:00:01" 1 0).1
    (by decide) (by decide)
  have h2 := (generateSequentialMacs_spec "FF:FF:FF:FF:FF:FF"
    281474976710655 1).2.1 (by decide) (by decide) (by decide) (by decide)
  refine ⟨?_, h1.2.1 3 (by decide), h1.2.2 0 (by decide), h2⟩
  have := h1.1
  simpa using this


/-! ### Sequential-provisioning trace lemmas -/

theorem settleOutcome_snd (m : MacStatus) (oc : AddHsdOutcome) :
    (settleOutcome m oc).2 = outcomeSuccess oc := by
  cases oc with
  | resolved r =>
    by_cases h : r.success <;> simp [settleOutcome, outcomeSuccess, h]
  | thrown e => rfl

theorem getD_set_ne {α : Type} (l : List α) (a d : α) (i j : Nat) (h : i ≠ j) :
    (l.set i a).getD j d = l.getD j d := by
  simp [List.getD, List.getElem?_set_ne h]

theorem getD_set_self {α : Type} (l : List α) (a d : α) (i : Nat)
    (h : i < l.length) : (l.set i a).getD i d = a := by
  simp [List.getD, List.getElem?_set_self, h]

theorem settledPrefix_length (oracle : Nat → AddHsdOutcome)
    (macs : List MacStatus) :
    ∀ k, (settledPrefix oracle macs k).length = macs.length
  | 0 => rfl
  | k + 1 => by
    unfold settledPrefix
    rw [List.length_set]
    exact settledPrefix_length oracle macs k

/-- Indices not yet settled still hold their original row. -/
theorem settledPrefix_getD_ge (oracle : Nat → AddHsdOutcome)
    (macs : List MacStatus) :
    ∀ k j, k ≤ j →
      (settledPrefix oracle macs k).getD j dfltMacStatus =
        macs.getD j dfltMacStatus
  | 0, j, _ => rfl
  | k + 1, j, h => by
    unfold settledPrefix
    rw [getD_set_ne _ _ _ _ _ (by omega)]
    exact settledPrefix_getD_ge oracle macs k j (by omega)

/-- Settled indices hold their settled row. -/
theorem settledPrefix_getD_lt (oracle : Nat → AddHsdOutcome)
    (macs : List MacStatus) :
    ∀ n i, i < n → i < macs.length →
      (settledPrefix oracle macs n).getD i dfltMacStatus =
        settledRow oracle macs i
  | 0, i, h, _ => absurd h (by omega)
  | n + 1, i, h, hlen => by
    unfold settledPrefix
    by_cases hi : i = n
    · subst hi
      rw [getD_set_self]
      rw [settledPrefix_length oracle macs i]
      exact hlen
    · rw [getD_set_ne _ _ _ _ _ (by omega)]
      exact settledPrefix_getD_lt oracle macs n i (by omega) hlen

theorem settledRow_provisionState (oracle : Nat → AddHsdOutcome)
    (macs : List MacStatus) (i : Nat) :
    (settledRow oracle macs i).provisionState =
      (if outcomeSuccess (oracle i) then .complete else .error) := by
  unfold settledRow settleOutcome
  cases h : oracle i with
  | resolved r =>
    by_cases hs : r.success <;> simp [outcomeSuccess, hs]
  | thrown e => simp [outcomeSuccess]

theorem countSuccessesRange_eq (oracle : Nat → AddHsdOutcome) :
    ∀ steps k,
      countSuccessesRange oracle k steps =
        ((List.range' k steps).filter (fun i => outcomeSuccess (oracle i))).length
  | 0, _ => rfl
  | steps + 1, k => by
    unfold countSuccessesRange
    rw [List.range'_succ]
    by_cases h : outcomeSuccess (oracle k)
    · simp [List.filter, h, countSuccessesRange_eq oracle steps (k + 1)]
      omega
    · simp [List.filter, h, countSuccessesRange_eq oracle steps (k + 1)]

/-- Closed form of the provisioning loop: starting from the state with
the first `k` rows settled, the loop settles the remaining rows one at
a time, counts the successes and emits exactly the per-index blocks in
index order. -/
theorem provisionLoop_closed (d : SeqProvisionDefaults)
    (oracle : Nat → AddHsdOutcome) (macs : List MacStatus) :
    ∀ steps k,
      provisionLoop d oracle (settledPrefix oracle macs k) k steps =
        (settledPrefix oracle macs (k + steps),
         countSuccessesRange oracle k steps,
         provisionTraceRange d oracle macs k steps)
  | 0, k => by
    simp [provisionLoop, countSuccessesRange, provisionTraceRange]
  | steps + 1, k => by
    unfold provisionLoop
    dsimp only
    rw [settledPrefix_getD_ge oracle macs k k (le_refl k)]
    have hmark : ({ mac := (macs.getD k dfltMacStatus).mac,
                    index := (macs.getD k dfltMacStatus).index,
                    configfile := (macs.getD k dfltMacStatus).configfile,
                    status := (macs.getD k dfltMacStatus).status,
                    currentData := (macs.getD k dfltMacStatus).currentData,
                    provisionState := ProvisionState.provisioning,
                    error := (macs.getD k dfltMacStatus).error } : MacStatus) =
        markedRow macs k := rfl
    rw [hmark]
    rw [List.set_set]
    have hcur2 : (settledPrefix oracle macs k).set k
        (settleOutcome (markedRow macs k) (oracle k)).1 =
        settledPrefix oracle macs (k + 1) := rfl
    rw [hcur2]
    rw [provisionLoop_closed d oracle macs steps (k + 1)]
    rw [settleOutcome_snd]
    have harith : k + 1 + steps = k + (steps + 1) := by omega
    rw [harith]
    rfl


/-- C6: `startProvisioning` (sequential variant) processes tracked
addresses strictly sequentially in index order: the emitted event
trace is exactly, for each index `i` in order, the snapshot publishing
row `i` as `provisioning`, then the `addHsd` request for `i`, then the
snapshot recording `i`'s settled outcome — so the request for `i + 1`
appears only after row `i`'s outcome snapshot — followed by the final
summary toast reporting the number of successful addresses out of the
total. Every index gets its block regardless of earlier errors, each
row ends `complete` on a success outcome and `error` otherwise, and
the reported success count equals the number of successful outcomes. -/
theorem startProvisioning_sequential_spec :
    ∀ (d : SeqProvisionDefaults) (macs : List MacStatus)
      (oracle : Nat → AddHsdOutcome),
      startProvisioning (some d) macs oracle =
        (settledPrefix oracle macs macs.length,
         provisionTraceRange d oracle macs 0 macs.length ++
           [.toastSummary (countSuccessesRange oracle 0 macs.length)
             macs.length]) ∧
      countSuccessesRange oracle 0 macs.length =
        ((List.range macs.length).filter
          (fun i => outcomeSuccess (oracle i))).length ∧
      (∀ i, i < macs.length →
        (settledPrefix oracle macs macs.length).getD i dfltMacStatus =
          settledRow oracle macs i ∧
        (settledRow oracle macs i).provisionState =
          (if outcomeSuccess (oracle i) then .complete else .error) ∧
        (markedRow macs i).provisionState = .provisioning) := by
  intro d macs oracle
  refine ⟨?_, ?_, ?_⟩
  · unfold startProvisioning
    dsimp only
    have h0 := provisionLoop_closed d oracle macs macs.length 0
    rw [show settledPrefix oracle macs 0 = macs from rfl] at h0
    rw [h0]
    rw [show 0 + macs.length = macs.length by omega]
  · rw [countSuccessesRange_eq oracle macs.length 0, List.range_eq_range']
  · intro i hi
    exact ⟨settledPrefix_getD_lt oracle macs macs.length i hi hi,
      settledRow_provisionState oracle macs i, rfl⟩

/-- C6 witness: a two-row run where the first `addHsd` outcome fails
and the second succeeds. -/
theorem startProvisioning_sequential_spec_witness :
    ((settledPrefix
        (fun i => if i = 0 then
          AddHsdOutcome.resolved { success := false, error := none, detail := none }
          else AddHsdOutcome.resolved { success := true, error := none, detail := none })
        [dfltMacStatus, dfltMacStatus] 2).getD 1 dfltMacStatus =
      settledRow
        (fun i => if i = 0 then
          AddHsdOutcome.resolved { success := false, error := none, detail := none }
          else AddHsdOutcome.resolved { success := true, error := none, detail := none })
        [dfltMacStatus, dfltMacStatus] 1) ∧
    ((settledRow
        (fun i => if i = 0 then
          AddHsdOutcome.resolved { success := false, error := none, detail := none }
          else AddHsdOutcome.resolved { success := true, error := none, detail := none })
        [dfltMacStatus, dfltMacStatus] 1).provisionState =
      (if outcomeSuccess ((fun i => if i = 0 then
          AddHsdOutcome.resolved { success := false, error := none, detail := none }
          else AddHsdOutcome.resolved { success := true, error := none, detail := none }) 1)
        then .complete else .error)) :=
  let oracle : Nat → AddHsdOutcome := fun i => if i = 0 then
    AddHsdOutcome.resolved { success := false, error := none, detail := none }
    else AddHsdOutcome.resolved { success := true, error := none, detail := none }
  let h := (startProvisioning_sequential_spec ⟨"acct", "isp", ["c0", "c1"]⟩
    [dfltMacStatus, dfltMacStatus] oracle).2.2 1 (by decide)
  ⟨h.1, h.2.1⟩

end Viavi
